import Mathlib

/-!
# BdoMarketAlerts — verification of the tracked-item change-detection pipeline

Shallow embedding of the core of the BdoMarketAlerts repository:

* `src/server/storage.ts` (`FileStorage`: in-memory `Map<string, TrackedItem>`
  per region, written through to a JSON file after each mutation);
* `src/server/price-monitor.ts` (`checkPrices`: the poll pass — fetch, diff,
  notify, unconditional update, per-item `try/catch`);
* `src/server/bdo-api.ts` (`getItemInfo`: fetch + payload normalisation with
  JavaScript `||` / `??` fallbacks);
* `src/server/discord-embeds` (`sendWebhookMessage`: fire-and-forget webhook
  delivery returning a boolean);
* `src/server/routes.ts` (the add-item route flow: duplicate check, remote
  fetch, store add).

JavaScript numbers appearing in these files are integers in practice
(item ids, enhancement levels, silver prices, unix timestamps), so they are
modelled as `Int`.  Network and clock effects are passed in explicitly as
oracles; the file-system write of `saveToFile` is modelled as an emitted
`PersistEvent` carrying the snapshot written.
-/

namespace BdoMarketAlerts

/-- Record type `TrackedItem` from `shared/schema.ts` as used by `FileStorage`:
identity `(id, sid)` plus last-known market data and creation time. -/
structure TrackedItem where
  id : Int
  sid : Int
  name : String
  lastPrice : Int
  lastStock : Int
  lastSoldTime : Int
  addedAt : Int
deriving Repr, DecidableEq

/-- Record type `InsertTrackedItem`: the fields supplied to `addTrackedItem`
(everything except `addedAt`, which the store sets itself). -/
structure InsertTrackedItem where
  id : Int
  sid : Int
  name : String
  lastPrice : Int
  lastStock : Int
  lastSoldTime : Int
deriving Repr, DecidableEq

/-- Record type `BdoItemInfo` from `shared/schema.ts`: the normalised result of
`getItemInfo`. -/
structure BdoItemInfo where
  id : Int
  sid : Int
  name : String
  minEnhance : Int
  maxEnhance : Int
  basePrice : Int
  currentStock : Int
  totalTrades : Int
  priceMin : Int
  priceMax : Int
  lastSoldPrice : Int
  lastSoldTime : Int
deriving Repr, DecidableEq

/-- Source `FileStorage.getKey`: the composite map key, id and sid joined by a dash. -/
def getKey (id sid : Int) : String :=
  toString id ++ "-" ++ toString sid

/-- One region's `Map<string, TrackedItem>`, in insertion order.
A JavaScript `Map` never holds two entries with the same key. -/
abbrev Store := List (String × TrackedItem)

/-- JavaScript `Map.get`. -/
def mapGet : Store → String → Option TrackedItem
  | [], _ => none
  | p :: rest, k => if p.1 = k then some p.2 else mapGet rest k

/-- JavaScript `Map.set`: replace the value of an existing key in place,
otherwise append the new entry (insertion order preserved). -/
def mapSet : Store → String → TrackedItem → Store
  | [], k, v => [(k, v)]
  | p :: rest, k, v => if p.1 = k then (k, v) :: rest else p :: mapSet rest k v

/-- JavaScript `Map.delete`: remove the entry with the given key and report
whether it was present. -/
def mapDelete : Store → String → Store × Bool
  | [], _ => ([], false)
  | p :: rest, k =>
    if p.1 = k then (rest, true)
    else
      let r := mapDelete rest k
      (p :: r.1, r.2)

/-- Source `FileStorage.getTrackedItems`: the map values in insertion order. -/
def getTrackedItems (m : Store) : List TrackedItem :=
  m.map Prod.snd

/-- Source `FileStorage.getTrackedItem`. -/
def getTrackedItem (m : Store) (id sid : Int) : Option TrackedItem :=
  mapGet m (getKey id sid)

/-- One `saveToFile` outcome: either the full record set written to disk, or
a write failure (caught and logged by `saveToFile`, never rethrown). -/
inductive PersistEvent where
  | saved (items : List TrackedItem)
  | saveFailed
deriving Repr, DecidableEq

/-- Source `FileStorage.saveToFile`: serialise every value of the region map;
a throwing `writeFileSync` is swallowed (`try/catch` with a log). The
`writeOk` oracle stands for whether the write succeeds. -/
def saveToFile (writeOk : Bool) (m : Store) : List PersistEvent :=
  if writeOk then [.saved (getTrackedItems m)] else [.saveFailed]

/-- Source `FileStorage.addTrackedItem`: stamp `addedAt` with the current time,
`Map.set` under `getKey`, save, and return the new record.  Note: no
duplicate check at this layer — an existing key is overwritten. -/
def addTrackedItem (writeOk : Bool) (m : Store) (item : InsertTrackedItem)
    (now : Int) : Store × TrackedItem × List PersistEvent :=
  let trackedItem : TrackedItem :=
    { id := item.id, sid := item.sid, name := item.name,
      lastPrice := item.lastPrice, lastStock := item.lastStock,
      lastSoldTime := item.lastSoldTime, addedAt := now }
  let m2 := mapSet m (getKey item.id item.sid) trackedItem
  (m2, trackedItem, saveToFile writeOk m2)

/-- Source `FileStorage.removeTrackedItem`.  With `sid` given: `Map.delete` on the
exact key.  Without `sid`: the source collects the keys of all entries whose
`item.id` matches and deletes them; on a `Map` (distinct keys) that is the
same as retaining exactly the entries whose `item.id` differs.  `saveToFile`
runs only when something was removed. -/
def removeTrackedItem (writeOk : Bool) (m : Store) (id : Int)
    (sid : Option Int) : Store × Bool × List PersistEvent :=
  match sid with
  | some s =>
    let r := mapDelete m (getKey id s)
    (r.1, r.2, if r.2 then saveToFile writeOk r.1 else [])
  | none =>
    let removed := m.any (fun p => p.2.id = id)
    let m2 := m.filter (fun p => p.2.id ≠ id)
    (m2, removed, if removed then saveToFile writeOk m2 else [])

/-- Type `Partial<TrackedItem>`: every field optional, as in the source type of
`updateTrackedItem`'s `updates` argument. -/
structure UpdateFields where
  id : Option Int := none
  sid : Option Int := none
  name : Option String := none
  lastPrice : Option Int := none
  lastStock : Option Int := none
  lastSoldTime : Option Int := none
  addedAt : Option Int := none
deriving Repr, DecidableEq

/-- The object spread `{ ...existing, ...updates }`: a field present in
`updates` wins, an absent one keeps the existing value. -/
def mergeUpdates (existing : TrackedItem) (u : UpdateFields) : TrackedItem :=
  { id := u.id.getD existing.id,
    sid := u.sid.getD existing.sid,
    name := u.name.getD existing.name,
    lastPrice := u.lastPrice.getD existing.lastPrice,
    lastStock := u.lastStock.getD existing.lastStock,
    lastSoldTime := u.lastSoldTime.getD existing.lastSoldTime,
    addedAt := u.addedAt.getD existing.addedAt }

/-- Source `FileStorage.updateTrackedItem`: look up the key; absent means no
implicit creation (`undefined` result, nothing saved); present means merge,
`Map.set`, save, return the merged record. -/
def updateTrackedItem (writeOk : Bool) (m : Store) (id sid : Int)
    (u : UpdateFields) : Store × Option TrackedItem × List PersistEvent :=
  let key := getKey id sid
  match mapGet m key with
  | none => (m, none, [])
  | some existing =>
    let updated := mergeUpdates existing u
    let m2 := mapSet m key updated
    (m2, some updated, saveToFile writeOk m2)

/-- Source `FileStorage.loadFromFile`: the parsed item list is poured into a fresh
map entry by entry via `Map.set` under each item's key. -/
def loadFromFile (items : List TrackedItem) : Store :=
  items.foldl (fun m item => mapSet m (getKey item.id item.sid) item) []

/-! ## `bdo-api.ts`: `getItemInfo` -/

/-- One JSON object of the arsha.io item payload.  `none` stands for a
missing (`undefined`) or `null` property; JavaScript's `x || d` additionally
treats `0` and `""` as absent, `x ?? d` does not. -/
structure RawItem where
  id : Option Int := none
  sid : Option Int := none
  name : Option String := none
  minEnhance : Option Int := none
  maxEnhance : Option Int := none
  basePrice : Option Int := none
  currentStock : Option Int := none
  totalTrades : Option Int := none
  priceMin : Option Int := none
  priceMax : Option Int := none
  lastSoldPrice : Option Int := none
  lastSoldTime : Option Int := none
deriving Repr, DecidableEq

/-- The parsed body `await response.json()`:
`null`-ish, a single object, or an array of objects. -/
inductive ApiData where
  | nullData
  | obj (item : RawItem)
  | arr (items : List RawItem)
deriving Repr, DecidableEq

/-- The outcome of the `fetch` call inside `getItemInfo`:
a rejected promise (network error), a response with an HTTP status, or a
body that fails to parse as JSON (both rejections land in the `catch`). -/
inductive ApiResponse where
  | networkError
  | httpStatus (ok : Bool) (status : Int) (data : ApiData)
  | parseError
deriving Repr, DecidableEq

/-- JavaScript `x || d` on an optional number: missing, `null` and `0` all
fall back to the default. -/
def numOr (v : Option Int) (d : Int) : Int :=
  match v with
  | none => d
  | some x => if x = 0 then d else x

/-- JavaScript `x || d` on an optional string: missing, `null` and `""` all
fall back to the default. -/
def strOr (v : Option String) (d : String) : String :=
  match v with
  | none => d
  | some s => if s = "" then d else s

/-- The result object literal of `getItemInfo`: every field filled from
`itemData` with the source's fallbacks (`||` everywhere, `??` for `sid`,
`` `Item ${id}` `` for the name). -/
def normalizeItem (id sid : Int) (d : RawItem) : BdoItemInfo :=
  { id := numOr d.id id,
    sid := d.sid.getD sid,
    name := strOr d.name ("Item " ++ toString id),
    minEnhance := numOr d.minEnhance 0,
    maxEnhance := numOr d.maxEnhance 0,
    basePrice := numOr d.basePrice 0,
    currentStock := numOr d.currentStock 0,
    totalTrades := numOr d.totalTrades 0,
    priceMin := numOr d.priceMin 0,
    priceMax := numOr d.priceMax 0,
    lastSoldPrice := numOr d.lastSoldPrice 0,
    lastSoldTime := numOr d.lastSoldTime 0 }

/-- Source `getItemInfo(id, sid)` over an explicit response oracle: `null` on a
rejected fetch, a non-`ok` status, a JSON parse failure, a falsy body or an
empty array; otherwise the chosen element (`find` on `sid`/`minEnhance`,
falling back to `data[0]`, or the single object) is normalised.  The
enclosing `try/catch` means the function itself never throws. -/
def getItemInfo (id sid : Int) (resp : ApiResponse) : Option BdoItemInfo :=
  match resp with
  | .networkError => none
  | .parseError => none
  | .httpStatus ok _ data =>
    if !ok then none
    else
      match data with
      | .nullData => none
      | .obj itemData => some (normalizeItem id sid itemData)
      | .arr [] => none
      | .arr (it0 :: rest) =>
        let itemData :=
          ((it0 :: rest).find? fun it =>
            it.sid == some sid || it.minEnhance == some sid).getD it0
        some (normalizeItem id sid itemData)

/-! ## `price-monitor.ts`: change detection and the poll pass -/

/-- The `"increase" | "decrease"` literal type. -/
inductive PriceChange where
  | increase
  | decrease
deriving Repr, DecidableEq

/-- The `PriceAlert` built inside `checkPrices` (the parts of the `alert`
object literal that carry information). -/
structure PriceAlert where
  itemId : Int
  sid : Int
  itemName : String
  oldPrice : Int
  newPrice : Int
  priceChange : PriceChange
  stock : Int
  lastSoldTime : Int
deriving Repr, DecidableEq

/-- The change-detection step of the `checkPrices` loop body: compare
`item.lastPrice` with `currentInfo.lastSoldPrice`; build an alert exactly
when they differ and the stored baseline is positive, with direction
`increase` when the new price is strictly larger. -/
def detectChange (item : TrackedItem) (currentInfo : BdoItemInfo) :
    Option PriceAlert :=
  let oldPrice := item.lastPrice
  let newPrice := currentInfo.lastSoldPrice
  if oldPrice ≠ newPrice ∧ oldPrice > 0 then
    some { itemId := item.id, sid := item.sid,
           itemName := strOr (some currentInfo.name) item.name,
           oldPrice := oldPrice, newPrice := newPrice,
           priceChange := if newPrice > oldPrice then .increase else .decrease,
           stock := currentInfo.currentStock,
           lastSoldTime := currentInfo.lastSoldTime }
  else none

/-- What happened to one item of a pass: the fetch threw (caught by the
per-item `try/catch`), the fetch resolved to `null` (`continue`), or the
item was processed — with the alert (if any) and the webhook result (if an
alert was sent). -/
inductive ItemOutcome where
  | fetchFailed (err : String)
  | fetchNull
  | processed (alert : Option PriceAlert) (sent : Option Bool)
deriving Repr, DecidableEq

/-- The body of the `for` loop of `checkPrices` for one item: on a thrown
fetch the `catch` logs and moves on (store untouched); on a `null` fetch the
loop `continue`s; otherwise detect, send the webhook when an alert was
built, and unconditionally `updateTrackedItem` with the fresh snapshot
(`name` falling back to the old name when the fetched one is falsy). -/
def processItem (send : PriceAlert → Bool) (writeOk : Bool)
    (fetched : Except String (Option BdoItemInfo)) (m : Store)
    (item : TrackedItem) : Store × ItemOutcome × List PersistEvent :=
  match fetched with
  | .error e => (m, .fetchFailed e, [])
  | .ok none => (m, .fetchNull, [])
  | .ok (some currentInfo) =>
    let alert := detectChange item currentInfo
    let sent := alert.map send
    let u : UpdateFields :=
      { lastPrice := some currentInfo.lastSoldPrice,
        lastStock := some currentInfo.currentStock,
        lastSoldTime := some currentInfo.lastSoldTime,
        name := some (strOr (some currentInfo.name) item.name) }
    let r := updateTrackedItem writeOk m item.id item.sid u
    (r.1, .processed alert sent, r.2.2)

/-- One `foldl` step of the pass: run `processItem` on the current store and
append the attempt record `((id, sid), outcome)`. -/
def passStep (fetchR : Int → Int → Except String (Option BdoItemInfo))
    (send : PriceAlert → Bool) (writeOk : Bool)
    (acc : Store × List ((Int × Int) × ItemOutcome)) (item : TrackedItem) :
    Store × List ((Int × Int) × ItemOutcome) :=
  let r := processItem send writeOk (fetchR item.id item.sid) acc.1 item
  (r.1, acc.2 ++ [((item.id, item.sid), r.2.1)])

/-- Source `checkPrices`: list the tracked items once, then iterate the loop body
over that snapshot.  The fetch, webhook and disk effects are oracles; the
result records the final store and, in order, every attempted item with its
outcome.  The function is total: a throwing fetch is data
(`Except.error`), swallowed per item as in the source. -/
def checkPrices (fetchR : Int → Int → Except String (Option BdoItemInfo))
    (send : PriceAlert → Bool) (writeOk : Bool) (m : Store) :
    Store × List ((Int × Int) × ItemOutcome) :=
  (getTrackedItems m).foldl (passStep fetchR send writeOk) (m, [])

/-! ## `discord-embeds`: `sendWebhookMessage` -/

/-- Outcome of the webhook `fetch`: a rejected promise, or a response with
an HTTP status (`response.ok` ↔ status in 200–299). -/
inductive HttpResult where
  | thrown
  | response (status : Int)
deriving Repr, DecidableEq

/-- Predicate `response.ok`: the status is in the 200–299 range. -/
def respOk (status : Int) : Bool :=
  200 ≤ status && status < 300

/-- Source `sendWebhookMessage`: `false` when `DISCORD_WEBHOOK_URL` is unset;
otherwise POST via the transport oracle — `false` on a thrown fetch (the
`catch`) or a non-`ok` status, `true` on an `ok` response.  Total: never
raises. -/
def sendWebhookMessage (webhookUrl : Option String)
    (transport : String → HttpResult) : Bool :=
  match webhookUrl with
  | none => false
  | some url =>
    match transport url with
    | .thrown => false
    | .response status => respOk status

/-! ## `routes.ts`: the add-item flow -/

/-- Result of `POST /api/items` after body validation. -/
inductive AddRouteResult where
  | alreadyTracked
  | itemNotFound
  | created (item : TrackedItem)
deriving Repr, DecidableEq

/-- The add-item route body: reject with 409 when `getTrackedItem` already
finds the pair; 404 when the remote fetch resolves to `null`; otherwise
`addTrackedItem` with the fetched snapshot (`id` from the payload, `sid`
from the request). -/
def addItemRoute (writeOk : Bool) (m : Store) (id sid : Int)
    (fetched : Option BdoItemInfo) (now : Int) :
    Store × AddRouteResult × List PersistEvent :=
  match getTrackedItem m id sid with
  | some _ => (m, .alreadyTracked, [])
  | none =>
    match fetched with
    | none => (m, .itemNotFound, [])
    | some info =>
      let r := addTrackedItem writeOk m
        { id := info.id, sid := sid, name := info.name,
          lastPrice := info.lastSoldPrice, lastStock := info.currentStock,
          lastSoldTime := info.lastSoldTime } now
      (r.1, .created r.2.1, r.2.2)

/-! ## Store invariants -/

/-- Well-formedness of a region map, maintained by `FileStorage`: keys are
pairwise distinct (a `Map` property) and every entry sits under the key
derived from its own `(id, sid)`. -/
def WFStore (m : Store) : Prop :=
  (m.map Prod.fst).Nodup ∧ ∀ p ∈ m, p.1 = getKey p.2.id p.2.sid

/-- The spec's store invariant: at most one record per `(itemId, variantId)`
pair. -/
def AtMostOnePerPair (m : Store) : Prop :=
  ∀ p ∈ m, ∀ q ∈ m, p.2.id = q.2.id → p.2.sid = q.2.sid → p = q

/-- The per-item outcome of a pass, expressed as a function of the item and
the oracles alone (it does not depend on the store or on the other items):
used to state that `checkPrices` attempts every tracked item exactly once
whatever happens to the others. -/
def expectedOutcome (fetchR : Int → Int → Except String (Option BdoItemInfo))
    (send : PriceAlert → Bool) (item : TrackedItem) : ItemOutcome :=
  match fetchR item.id item.sid with
  | .error e => .fetchFailed e
  | .ok none => .fetchNull
  | .ok (some info) =>
    .processed (detectChange item info) ((detectChange item info).map send)

/-! ## Concrete sample data (used by witnesses and counterexamples) -/

/-- A tracked item with a positive stored baseline price. -/
def itemW1 : TrackedItem :=
  { id := 1, sid := 0, name := "a", lastPrice := 100, lastStock := 1,
    lastSoldTime := 1, addedAt := 1 }

/-- A tracked item with a zero stored baseline price. -/
def itemW2 : TrackedItem :=
  { id := 1, sid := 0, name := "a", lastPrice := 0, lastStock := 1,
    lastSoldTime := 1, addedAt := 1 }

/-- A fetched snapshot whose last sold price is zero. -/
def infoW1 : BdoItemInfo :=
  { id := 1, sid := 0, name := "a", minEnhance := 0, maxEnhance := 0,
    basePrice := 0, currentStock := 1, totalTrades := 0, priceMin := 0,
    priceMax := 0, lastSoldPrice := 0, lastSoldTime := 0 }

/-- A one-entry store holding `itemW1` under its key. -/
def storeW : Store := [(getKey 1 0, itemW1)]

/-- A raw payload carrying a name and a price. -/
def rawW : RawItem := { name := some "Iron Ore", lastSoldPrice := some 120 }

/-- A 200 response whose body is the single object `rawW`. -/
def respW : ApiResponse := .httpStatus true 200 (.obj rawW)

/-- The normalisation of `rawW` for request `(1, 0)`. -/
def infoW2 : BdoItemInfo := normalizeItem 1 0 rawW

/-- The record stored for pair `(1, 0)` before the duplicate add. -/
def itemOld : TrackedItem :=
  { id := 1, sid := 0, name := "old", lastPrice := 100, lastStock := 5,
    lastSoldTime := 50, addedAt := 1000 }

/-- A store already tracking pair `(1, 0)`. -/
def storeC3 : Store := [(getKey 1 0, itemOld)]

/-- An insert for the already-tracked pair `(1, 0)` with different data. -/
def insNew : InsertTrackedItem :=
  { id := 1, sid := 0, name := "new", lastPrice := 200, lastStock := 6,
    lastSoldTime := 60 }

/-- Records for two variants of item 1 and one variant of item 2. -/
def recA10 : TrackedItem :=
  { id := 1, sid := 0, name := "a0", lastPrice := 10, lastStock := 1,
    lastSoldTime := 1, addedAt := 1 }

def recA11 : TrackedItem :=
  { id := 1, sid := 1, name := "a1", lastPrice := 11, lastStock := 1,
    lastSoldTime := 1, addedAt := 1 }

def recB20 : TrackedItem :=
  { id := 2, sid := 0, name := "b0", lastPrice := 20, lastStock := 1,
    lastSoldTime := 1, addedAt := 1 }

/-- A well-formed three-entry store. -/
def storeC5 : Store :=
  [(getKey 1 0, recA10), (getKey 1 1, recA11), (getKey 2 0, recB20)]

/-- A two-entry store used to break the per-pair invariant via `update`. -/
def storeC9 : Store := [(getKey 1 0, recA10), (getKey 2 0, recB20)]

/-- A `Partial<TrackedItem>` that overrides only `id` — representable at the
source type of `updateTrackedItem`. -/
def updIdOverride : UpdateFields := { id := some 1 }

/-- The update fields `checkPrices` passes (snapshot data only). -/
def updW : UpdateFields :=
  { name := some "c", lastPrice := some 7, lastStock := some 8,
    lastSoldTime := some 9 }

/-- A raw payload with every property absent. -/
def emptyRaw : RawItem := {}

/-- A 200 response whose body is a single empty object. -/
def respEmptyObj : ApiResponse := .httpStatus true 200 (.obj emptyRaw)

/-! ## Helper lemmas about the map primitives -/

theorem mapGet_mapSet_self (m : Store) (k : String) (v : TrackedItem) :
    mapGet (mapSet m k v) k = some v := by
  induction m with
  | nil => simp [mapSet, mapGet]
  | cons p rest ih =>
    by_cases h : p.1 = k
    · simp [mapSet, mapGet, h]
    · simp [mapSet, mapGet, h, ih]

theorem mapGet_mapSet_ne (m : Store) (k k' : String) (v : TrackedItem)
    (h : k' ≠ k) : mapGet (mapSet m k v) k' = mapGet m k' := by
  induction m with
  | nil =>
    simp only [mapSet, mapGet]
    rw [if_neg (fun hc : k = k' => h hc.symm)]
  | cons p rest ih =>
    by_cases hp : p.1 = k
    · have hk' : ¬ k = k' := fun hc => h hc.symm
      have hpk' : ¬ p.1 = k' := fun hc => hk' (hp ▸ hc)
      simp only [mapSet, if_pos hp, mapGet, if_neg hk', if_neg hpk']
    · simp only [mapSet, if_neg hp, mapGet, ih]

theorem mem_mapSet {m : Store} {k : String} {v : TrackedItem}
    {p : String × TrackedItem} (h : p ∈ mapSet m k v) :
    p = (k, v) ∨ p ∈ m := by
  induction m with
  | nil => simpa [mapSet] using h
  | cons q rest ih =>
    by_cases hq : q.1 = k
    · simp only [mapSet, hq, if_pos rfl] at h
      rcases List.mem_cons.mp h with h | h
      · exact .inl h
      · exact .inr (List.mem_cons_of_mem _ h)
    · simp only [mapSet, hq, if_neg hq] at h
      rcases List.mem_cons.mp h with h | h
      · exact .inr (h ▸ List.mem_cons_self _ _)
      · rcases ih h with h | h
        · exact .inl h
        · exact .inr (List.mem_cons_of_mem _ h)

theorem mem_keys_mapSet {m : Store} {k k' : String} {v : TrackedItem}
    (h : k' ∈ (mapSet m k v).map Prod.fst) :
    k' = k ∨ k' ∈ m.map Prod.fst := by
  rcases List.mem_map.mp h with ⟨p, hp, hk⟩
  rcases mem_mapSet hp with h1 | h1
  · exact .inl (hk ▸ h1 ▸ rfl)
  · exact .inr (hk ▸ List.mem_map_of_mem _ h1)

theorem nodup_keys_mapSet {m : Store} {k : String} {v : TrackedItem}
    (h : (m.map Prod.fst).Nodup) :
    ((mapSet m k v).map Prod.fst).Nodup := by
  induction m with
  | nil => simp [mapSet]
  | cons q rest ih =>
    rw [List.map_cons, List.nodup_cons] at h
    by_cases hq : q.1 = k
    · simpa [mapSet, hq, List.nodup_cons] using h
    · have hrest := ih h.2
      rw [show mapSet (q :: rest) k v = q :: mapSet rest k v by
        simp [mapSet, hq]]
      rw [List.map_cons, List.nodup_cons]
      refine ⟨fun hmem => ?_, hrest⟩
      rcases mem_keys_mapSet hmem with h1 | h1
      · exact hq h1
      · exact h.1 h1

theorem mem_of_mapGet_eq_some {m : Store} {k : String} {v : TrackedItem}
    (h : mapGet m k = some v) : (k, v) ∈ m := by
  induction m with
  | nil => simp [mapGet] at h
  | cons p rest ih =>
    by_cases hp : p.1 = k
    · simp only [mapGet, if_pos hp] at h
      have : p = (k, v) := by
        cases p
        simp_all
      exact this ▸ List.mem_cons_self _ _
    · simp only [mapGet, if_neg hp] at h
      exact List.mem_cons_of_mem _ (ih h)

theorem mapGet_eq_none_of_not_mem {m : Store} {k : String}
    (h : k ∉ m.map Prod.fst) : mapGet m k = none := by
  induction m with
  | nil => simp [mapGet]
  | cons p rest ih =>
    rw [List.map_cons] at h
    have h1 : p.1 ≠ k := fun hc => h (hc ▸ List.mem_cons_self _ _)
    have h2 : k ∉ rest.map Prod.fst := fun hc => h (List.mem_cons_of_mem _ hc)
    simp [mapGet, h1, ih h2]

theorem mapGet_isSome_iff_mem_keys (m : Store) (k : String) :
    (mapGet m k).isSome = true ↔ k ∈ m.map Prod.fst := by
  induction m with
  | nil => simp [mapGet]
  | cons p rest ih =>
    by_cases hp : p.1 = k
    · simp [mapGet, hp]
    · simp [mapGet, hp, ih, Ne.symm hp]

theorem mapDelete_removed (m : Store) (k : String) :
    (mapDelete m k).2 = (mapGet m k).isSome := by
  induction m with
  | nil => simp [mapDelete, mapGet]
  | cons p rest ih =>
    by_cases hp : p.1 = k
    · simp [mapDelete, mapGet, hp]
    · simp [mapDelete, mapGet, hp, ih]

theorem mapDelete_not_removed {m : Store} {k : String}
    (h : (mapDelete m k).2 = false) : (mapDelete m k).1 = m := by
  induction m with
  | nil => simp [mapDelete]
  | cons p rest ih =>
    by_cases hp : p.1 = k
    · simp [mapDelete, hp] at h
    · simp only [mapDelete, if_neg hp] at h ⊢
      simpa using ih h

theorem mapDelete_sublist (m : Store) (k : String) :
    (mapDelete m k).1.Sublist m := by
  induction m with
  | nil => simp [mapDelete]
  | cons p rest ih =>
    by_cases hp : p.1 = k
    · simp only [mapDelete, if_pos hp]
      exact List.sublist_cons_self _ _
    · simp only [mapDelete, if_neg hp]
      exact List.Sublist.cons₂ _ ih

theorem mapGet_mapDelete_ne (m : Store) (k k' : String) (h : k' ≠ k) :
    mapGet (mapDelete m k).1 k' = mapGet m k' := by
  induction m with
  | nil => simp [mapDelete]
  | cons p rest ih =>
    by_cases hp : p.1 = k
    · have hk' : ¬ k = k' := fun hc => h hc.symm
      simp [mapDelete, mapGet, hp, hk']
    · simp only [mapDelete, if_neg hp]
      by_cases hp' : p.1 = k'
      · simp [mapGet, hp']
      · simp [mapGet, hp', ih]

theorem mapGet_mapDelete_self {m : Store} (k : String)
    (hnd : (m.map Prod.fst).Nodup) : mapGet (mapDelete m k).1 k = none := by
  induction m with
  | nil => simp [mapDelete, mapGet]
  | cons p rest ih =>
    rw [List.map_cons, List.nodup_cons] at hnd
    by_cases hp : p.1 = k
    · simp only [mapDelete, if_pos hp]
      exact mapGet_eq_none_of_not_mem (hp ▸ hnd.1)
    · simp only [mapDelete, if_neg hp]
      simp [mapGet, hp, ih hnd.2]

/-! ## Well-formedness preservation -/

theorem WFStore_mapSet {m : Store} {v : TrackedItem} (h : WFStore m) :
    WFStore (mapSet m (getKey v.id v.sid) v) := by
  refine ⟨nodup_keys_mapSet h.1, fun p hp => ?_⟩
  rcases mem_mapSet hp with h1 | h1
  · subst h1
    rfl
  · exact h.2 p h1

theorem WFStore_of_sublist {m m' : Store} (hs : m'.Sublist m)
    (h : WFStore m) : WFStore m' :=
  ⟨(hs.map Prod.fst).nodup h.1, fun p hp => h.2 p (hs.subset hp)⟩

theorem WFStore_to_AtMostOnePerPair {m : Store} (h : WFStore m) :
    AtMostOnePerPair m := by
  intro p hp q hq hid hsid
  have hk : p.1 = q.1 := by
    rw [h.2 p hp, h.2 q hq, hid, hsid]
  exact List.inj_on_of_nodup_map h.1 hp hq hk

/-! ## Name normalisation facts -/

theorem item_default_name_ne_empty (id : Int) :
    "Item " ++ toString id ≠ "" := by
  intro h
  have h2 : ("Item " ++ toString id).data = ("" : String).data :=
    congrArg String.data h
  rw [String.data_append] at h2
  have h3 := List.append_eq_nil.mp h2
  exact absurd h3.1 (by decide)

theorem normalizeItem_name_ne_empty (id sid : Int) (d : RawItem) :
    (normalizeItem id sid d).name ≠ "" := by
  show strOr d.name ("Item " ++ toString id) ≠ ""
  rcases hn : d.name with _ | s
  · simpa [strOr] using item_default_name_ne_empty id
  · by_cases hs : s = ""
    · simpa [strOr, hs] using item_default_name_ne_empty id
    · simp only [strOr, if_neg hs]
      exact hs

theorem getItemInfo_eq_normalize {id sid : Int} {resp : ApiResponse}
    {info : BdoItemInfo} (h : getItemInfo id sid resp = some info) :
    ∃ d, info = normalizeItem id sid d := by
  unfold getItemInfo at h
  match resp with
  | .networkError => simp at h
  | .parseError => simp at h
  | .httpStatus ok status data =>
    match ok with
    | false => simp at h
    | true =>
      match data with
      | .nullData => simp at h
      | .obj itemData =>
        exact ⟨itemData, by simpa using h.symm⟩
      | .arr [] => simp at h
      | .arr (it0 :: rest) =>
        simp only [Bool.not_true, if_neg] at h
        refine ⟨((it0 :: rest).find? fun it =>
          it.sid == some sid || it.minEnhance == some sid).getD it0, ?_⟩
        simpa using h.symm

theorem getItemInfo_name_ne_empty {id sid : Int} {resp : ApiResponse}
    {info : BdoItemInfo} (h : getItemInfo id sid resp = some info) :
    info.name ≠ "" := by
  rcases getItemInfo_eq_normalize h with ⟨d, hd⟩
  exact hd ▸ normalizeItem_name_ne_empty id sid d

theorem WFStore_nil : WFStore [] :=
  ⟨List.nodup_nil, by simp⟩

theorem WFStore_foldl_mapSet (items : List TrackedItem) :
    ∀ (m : Store), WFStore m →
      WFStore (items.foldl
        (fun m item => mapSet m (getKey item.id item.sid) item) m) := by
  induction items with
  | nil =>
    intro m h
    simpa using h
  | cons x xs ih =>
    intro m h
    rw [List.foldl_cons]
    exact ih _ (WFStore_mapSet h)

theorem numOr_default {v : Option Int} {d : Int}
    (h : v = none ∨ v = some 0) : numOr v d = d := by
  rcases h with h | h <;> simp [numOr, h]

theorem strOr_default {v : Option String} {d : String}
    (h : v = none ∨ v = some "") : strOr v d = d := by
  rcases h with h | h <;> simp [strOr, h]

/-! ## Pass helper lemmas -/

theorem passStep_snd (fetchR : Int → Int → Except String (Option BdoItemInfo))
    (send : PriceAlert → Bool) (writeOk : Bool) (st : Store)
    (acc : List ((Int × Int) × ItemOutcome)) (x : TrackedItem) :
    (passStep fetchR send writeOk (st, acc) x).2 =
      acc ++ [((x.id, x.sid), expectedOutcome fetchR send x)] := by
  unfold passStep processItem expectedOutcome
  cases fetchR x.id x.sid with
  | error e => rfl
  | ok o =>
    cases o with
    | none => rfl
    | some info => rfl

theorem pass_foldl_snd (fetchR : Int → Int → Except String (Option BdoItemInfo))
    (send : PriceAlert → Bool) (writeOk : Bool) :
    ∀ (l : List TrackedItem) (st : Store)
      (acc : List ((Int × Int) × ItemOutcome)),
      (l.foldl (passStep fetchR send writeOk) (st, acc)).2 =
        acc ++ l.map fun item =>
          ((item.id, item.sid), expectedOutcome fetchR send item) := by
  intro l
  induction l with
  | nil => intro st acc; simp
  | cons x xs ih =>
    intro st acc
    rw [List.foldl_cons]
    have hx : passStep fetchR send writeOk (st, acc) x =
        ((passStep fetchR send writeOk (st, acc) x).1,
          acc ++ [((x.id, x.sid), expectedOutcome fetchR send x)]) :=
      Prod.ext rfl (passStep_snd fetchR send writeOk st acc x)
    rw [hx, ih]
    simp

/-! ## Claims -/

/-- C1: the change-detection step of `checkPrices` emits a price alert iff
the fetched price differs from the stored baseline and the baseline is
positive; the direction is `increase` exactly when the fetched price is
strictly larger; a fetched price of zero against a positive baseline yields
an ordinary `decrease` alert; a zero stored baseline suppresses every
alert. -/
theorem C1_detect_rule (item : TrackedItem) (info : BdoItemInfo) :
    ((detectChange item info).isSome = true ↔
      (info.lastSoldPrice ≠ item.lastPrice ∧ 0 < item.lastPrice)) ∧
    (∀ a, detectChange item info = some a →
      a.priceChange = (if item.lastPrice < info.lastSoldPrice
        then PriceChange.increase else PriceChange.decrease) ∧
      a.oldPrice = item.lastPrice ∧ a.newPrice = info.lastSoldPrice) ∧
    (info.lastSoldPrice = 0 → 0 < item.lastPrice →
      (detectChange item info).map PriceAlert.priceChange =
        some PriceChange.decrease) ∧
    (item.lastPrice = 0 → detectChange item info = none) := by
  by_cases h : item.lastPrice ≠ info.lastSoldPrice ∧ item.lastPrice > 0
  · simp only [detectChange, if_pos h]
    refine ⟨?_, ?_, ?_, ?_⟩
    · simp only [Option.isSome_some, true_iff]
      exact ⟨fun hc => h.1 hc.symm, h.2⟩
    · intro a ha
      have ha' := (Option.some_inj.mp ha).symm
      subst ha'
      exact ⟨by simp [gt_iff_lt], rfl, rfl⟩
    · intro hz hpos
      have hlt : ¬ info.lastSoldPrice > item.lastPrice := by omega
      simp [hlt]
    · intro hz
      exact absurd h.2 (by omega)
  · have hd : detectChange item info = none := by
      simp only [detectChange, if_neg h]
    refine ⟨?_, ?_, ?_, ?_⟩
    · rw [hd]
      simp only [Option.isSome_none, Bool.false_eq_true, false_iff]
      intro hc
      exact h ⟨fun he => hc.1 he.symm, hc.2⟩
    · intro a ha
      rw [hd] at ha
      exact absurd ha (by simp)
    · intro hz hpos
      exact absurd ⟨by omega, hpos⟩ h
    · intro _
      exact hd

/-- C1 witness: with a stored baseline of `100` and a fetched price of `0`
the detector emits a `decrease` alert; with a stored baseline of `0` it
emits nothing. -/
theorem C1_witness :
    infoW1.lastSoldPrice = 0 ∧ (0 : Int) < itemW1.lastPrice ∧
    (detectChange itemW1 infoW1).map PriceAlert.priceChange =
      some PriceChange.decrease ∧
    itemW2.lastPrice = 0 ∧ detectChange itemW2 infoW1 = none :=
  ⟨rfl, by decide,
    (C1_detect_rule itemW1 infoW1).2.2.1 rfl (by decide),
    rfl, (C1_detect_rule itemW2 infoW1).2.2.2 rfl⟩

/-- C2: after the pass processes an item whose fetch succeeded, the stored
record carries exactly the fetched `lastPrice`/`lastStock`/`lastSoldTime`
and name (the fetched name is never empty, so the `|| item.name` fallback
does not fire), while `addedAt` is untouched — whether or not an alert was
emitted. -/
theorem C2_pass_updates_stored_record (send : PriceAlert → Bool)
    (writeOk : Bool) (m : Store) (item : TrackedItem) (resp : ApiResponse)
    (currentInfo : BdoItemInfo)
    (hstored : mapGet m (getKey item.id item.sid) = some item)
    (hfetch : getItemInfo item.id item.sid resp = some currentInfo) :
    mapGet (processItem send writeOk (Except.ok (some currentInfo)) m item).1
        (getKey item.id item.sid) =
      some { id := item.id, sid := item.sid, name := currentInfo.name,
             lastPrice := currentInfo.lastSoldPrice,
             lastStock := currentInfo.currentStock,
             lastSoldTime := currentInfo.lastSoldTime,
             addedAt := item.addedAt } := by
  have hname := getItemInfo_name_ne_empty hfetch
  simp only [processItem, updateTrackedItem, hstored]
  rw [mapGet_mapSet_self]
  congr 1
  simp [mergeUpdates, strOr, hname]

/-- C2 witness: a concrete store, item and successful fetch for which the
post-step record equals the fetched snapshot with `addedAt` preserved. -/
theorem C2_witness :
    mapGet storeW (getKey itemW1.id itemW1.sid) = some itemW1 ∧
    getItemInfo itemW1.id itemW1.sid respW = some infoW2 ∧
    mapGet (processItem (fun _ => true) true (Except.ok (some infoW2))
        storeW itemW1).1 (getKey itemW1.id itemW1.sid) =
      some { id := itemW1.id, sid := itemW1.sid, name := infoW2.name,
             lastPrice := infoW2.lastSoldPrice,
             lastStock := infoW2.currentStock,
             lastSoldTime := infoW2.lastSoldTime,
             addedAt := itemW1.addedAt } :=
  ⟨by decide, by decide,
    C2_pass_updates_stored_record (fun _ => true) true storeW itemW1 respW
      infoW2 (by decide) (by decide)⟩

/-- C4: one call of `checkPrices` attempts every tracked item exactly once,
in list order, and each item's outcome depends only on that item and the
oracles: a thrown or `null` fetch for one item is recorded as that item's
outcome and never aborts the pass or changes another item's outcome.  The
pass is a total function — a throwing fetch is captured per item
(`ItemOutcome.fetchFailed`), so no exception escapes. -/
theorem C4_pass_attempts_every_item
    (fetchR : Int → Int → Except String (Option BdoItemInfo))
    (send : PriceAlert → Bool) (writeOk : Bool) (m : Store) :
    (checkPrices fetchR send writeOk m).2 =
      (getTrackedItems m).map fun item =>
        ((item.id, item.sid), expectedOutcome fetchR send item) := by
  unfold checkPrices
  rw [pass_foldl_snd]
  simp

/-- C8: adding a pair and then getting it back returns a record whose
`name`/`lastPrice`/`lastStock`/`lastSoldTime` are exactly the values
supplied to the add, with `addedAt` stamped from the clock. -/
theorem C8_add_then_get (writeOk : Bool) (m : Store)
    (item : InsertTrackedItem) (now : Int) :
    getTrackedItem (addTrackedItem writeOk m item now).1 item.id item.sid =
      some { id := item.id, sid := item.sid, name := item.name,
             lastPrice := item.lastPrice, lastStock := item.lastStock,
             lastSoldTime := item.lastSoldTime, addedAt := now } := by
  unfold getTrackedItem addTrackedItem
  exact mapGet_mapSet_self _ _ _

/-- C3 counterexample: the store-level `addTrackedItem` does not fail on an
already-tracked pair — called on a store that already holds `(1, 0)` it
returns the new record (no error path exists) and overwrites the existing
one, so the claim as stated about the store's add operation is false. -/
theorem C3_counterexample :
    (addTrackedItem true storeC3 insNew 2000).2.1 =
      ({ id := 1, sid := 0, name := "new", lastPrice := 200, lastStock := 6,
         lastSoldTime := 60, addedAt := 2000 } : TrackedItem) ∧
    mapGet (addTrackedItem true storeC3 insNew 2000).1 (getKey 1 0) ≠
      some itemOld := by
  exact ⟨by decide, by decide⟩

/-- C3 amended: the duplicate rejection lives one layer up — the add-item
route (and the bot command) first calls `getTrackedItem` and, when the pair
is already tracked, answers `AlreadyTracked` (HTTP 409) without touching the
store, leaving the existing record unmodified and persisting nothing. -/
theorem C3_route_rejects_duplicate (writeOk : Bool) (m : Store)
    (id sid : Int) (fetched : Option BdoItemInfo) (now : Int)
    (r : TrackedItem) (h : getTrackedItem m id sid = some r) :
    (addItemRoute writeOk m id sid fetched now).2.1 =
      AddRouteResult.alreadyTracked ∧
    (addItemRoute writeOk m id sid fetched now).1 = m ∧
    (addItemRoute writeOk m id sid fetched now).2.2 = [] := by
  simp [addItemRoute, h]

/-- C3 witness: the route flow rejects an add for the concretely tracked
pair `(1, 0)` and leaves the store untouched. -/
theorem C3_witness :
    getTrackedItem storeC3 1 0 = some itemOld ∧
    (addItemRoute true storeC3 1 0 none 2000).2.1 =
      AddRouteResult.alreadyTracked ∧
    (addItemRoute true storeC3 1 0 none 2000).1 = storeC3 ∧
    (addItemRoute true storeC3 1 0 none 2000).2.2 = [] :=
  ⟨by decide,
    C3_route_rejects_duplicate true storeC3 1 0 none 2000 itemOld (by decide)⟩

/-- C5: with a variant id, `removeTrackedItem` removes exactly that pair
(its key becomes absent, every other key is untouched) and reports whether
the pair existed; without a variant id it removes exactly the records whose
`id` matches, reporting whether there was at least one; in both forms a
`false` report means the store is unchanged. -/
theorem C5_remove_spec (writeOk : Bool) (m : Store) (id : Int)
    (hnd : (m.map Prod.fst).Nodup) :
    (∀ sid : Int,
      ((removeTrackedItem writeOk m id (some sid)).2.1 = true ↔
        (mapGet m (getKey id sid)).isSome = true) ∧
      mapGet (removeTrackedItem writeOk m id (some sid)).1
        (getKey id sid) = none ∧
      (∀ k, k ≠ getKey id sid →
        mapGet (removeTrackedItem writeOk m id (some sid)).1 k =
          mapGet m k) ∧
      ((removeTrackedItem writeOk m id (some sid)).2.1 = false →
        (removeTrackedItem writeOk m id (some sid)).1 = m)) ∧
    (((removeTrackedItem writeOk m id none).2.1 = true ↔
        ∃ p ∈ m, p.2.id = id) ∧
      (∀ p ∈ (removeTrackedItem writeOk m id none).1, p.2.id ≠ id) ∧
      (∀ p ∈ m, p.2.id ≠ id →
        p ∈ (removeTrackedItem writeOk m id none).1) ∧
      ((removeTrackedItem writeOk m id none).2.1 = false →
        (removeTrackedItem writeOk m id none).1 = m)) := by
  constructor
  · intro sid
    refine ⟨?_, ?_, ?_, ?_⟩
    · simp only [removeTrackedItem, mapDelete_removed]
    · simpa only [removeTrackedItem] using
        mapGet_mapDelete_self (getKey id sid) hnd
    · intro k hk
      simpa only [removeTrackedItem] using
        mapGet_mapDelete_ne m (getKey id sid) k hk
    · intro h
      simp only [removeTrackedItem] at h ⊢
      exact mapDelete_not_removed h
  · refine ⟨?_, ?_, ?_, ?_⟩
    · simp only [removeTrackedItem, List.any_eq_true, decide_eq_true_eq]
    · intro p hp
      simp only [removeTrackedItem] at hp
      have := List.of_mem_filter hp
      simpa using this
    · intro p hp hne
      simp only [removeTrackedItem]
      exact List.mem_filter_of_mem hp (by simpa using hne)
    · intro h
      simp only [removeTrackedItem, List.any_eq_false, decide_eq_true_eq] at h
      simp only [removeTrackedItem]
      exact List.filter_eq_self.mpr fun p hp => by
        simpa using h p hp

/-- C5 witness: removing item 1 without a variant from a concrete
three-entry store removes both of its variants, keeps item 2, and reports
`true`. -/
theorem C5_witness :
    (storeC5.map Prod.fst).Nodup ∧
    ((removeTrackedItem true storeC5 1 none).2.1 = true ↔
      ∃ p ∈ storeC5, p.2.id = 1) ∧
    (∀ p ∈ (removeTrackedItem true storeC5 1 none).1, p.2.id ≠ 1) :=
  ⟨by decide, ((C5_remove_spec true storeC5 1 (by decide)).2).1,
    ((C5_remove_spec true storeC5 1 (by decide)).2).2.1⟩

/-- C6: `sendWebhookMessage` is total (never raises) and returns `false`
when `DISCORD_WEBHOOK_URL` is unset, `false` when the webhook `fetch`
throws, and `true` exactly when the response status is a success
(200–299). -/
theorem C6_webhook_contract (webhookUrl : Option String)
    (transport : String → HttpResult) :
    (webhookUrl = none → sendWebhookMessage webhookUrl transport = false) ∧
    (∀ url, webhookUrl = some url → transport url = HttpResult.thrown →
      sendWebhookMessage webhookUrl transport = false) ∧
    (∀ url status, webhookUrl = some url →
      transport url = HttpResult.response status →
      (sendWebhookMessage webhookUrl transport = true ↔
        (200 ≤ status ∧ status < 300))) := by
  refine ⟨?_, ?_, ?_⟩
  · intro h
    simp [sendWebhookMessage, h]
  · intro url h ht
    simp [sendWebhookMessage, h, ht]
  · intro url status h ht
    simp [sendWebhookMessage, h, ht, respOk]

/-- C6 witness: a configured webhook with a 204 response delivers
successfully; the boolean contract holds at that concrete input. -/
theorem C6_witness :
    (some "hook" : Option String) = some "hook" ∧
    (fun _ : String => HttpResult.response 204) "hook" =
      HttpResult.response 204 ∧
    (sendWebhookMessage (some "hook")
        (fun _ : String => HttpResult.response 204) = true ↔
      (200 ≤ (204 : Int) ∧ (204 : Int) < 300)) :=
  ⟨rfl, rfl,
    (C6_webhook_contract (some "hook")
      (fun _ : String => HttpResult.response 204)).2.2 "hook" 204 rfl rfl⟩

/-- C7: every mutating store operation (`add`; `remove` that removed
something; `update` of an existing record) emits exactly one persistence of
the full post-mutation record set before returning; a failing write is
swallowed (`saveFailed` event) and the in-memory mutation stands — the
resulting store is identical whether or not the write succeeds. -/
theorem C7_write_through (m : Store) (item : InsertTrackedItem) (now : Int)
    (id sid : Int) (u : UpdateFields) :
    ((addTrackedItem true m item now).2.2 =
      [PersistEvent.saved (getTrackedItems (addTrackedItem true m item now).1)]) ∧
    ((addTrackedItem false m item now).1 = (addTrackedItem true m item now).1) ∧
    ((addTrackedItem false m item now).2.2 = [PersistEvent.saveFailed]) ∧
    (∀ sid? : Option Int, (removeTrackedItem true m id sid?).2.1 = true →
      (removeTrackedItem true m id sid?).2.2 =
        [PersistEvent.saved
          (getTrackedItems (removeTrackedItem true m id sid?).1)]) ∧
    (∀ sid? : Option Int,
      (removeTrackedItem false m id sid?).1 =
        (removeTrackedItem true m id sid?).1) ∧
    (∀ sid? : Option Int, (removeTrackedItem false m id sid?).2.1 = true →
      (removeTrackedItem false m id sid?).2.2 = [PersistEvent.saveFailed]) ∧
    ((mapGet m (getKey id sid)).isSome = true →
      (updateTrackedItem true m id sid u).2.2 =
        [PersistEvent.saved
          (getTrackedItems (updateTrackedItem true m id sid u).1)]) ∧
    ((updateTrackedItem false m id sid u).1 =
      (updateTrackedItem true m id sid u).1) ∧
    ((mapGet m (getKey id sid)).isSome = true →
      (updateTrackedItem false m id sid u).2.2 =
        [PersistEvent.saveFailed]) := by
  refine ⟨rfl, rfl, rfl, ?_, ?_, ?_, ?_, ?_, ?_⟩
  · intro sid? h
    match sid? with
    | some s =>
      simp only [removeTrackedItem] at h ⊢
      simp [h, saveToFile]
    | none =>
      simp only [removeTrackedItem] at h ⊢
      simp [h, saveToFile]
  · intro sid?
    match sid? with
    | some s => rfl
    | none => rfl
  · intro sid? h
    match sid? with
    | some s =>
      simp only [removeTrackedItem] at h ⊢
      simp [h, saveToFile]
    | none =>
      simp only [removeTrackedItem] at h ⊢
      simp [h, saveToFile]
  · intro h
    rcases hm : mapGet m (getKey id sid) with _ | existing
    · rw [hm] at h
      simp at h
    · simp [updateTrackedItem, hm, saveToFile]
  · rcases hm : mapGet m (getKey id sid) with _ | existing
    · simp [updateTrackedItem, hm]
    · simp [updateTrackedItem, hm]
  · intro h
    rcases hm : mapGet m (getKey id sid) with _ | existing
    · rw [hm] at h
      simp at h
    · simp [updateTrackedItem, hm, saveToFile]

/-- C7 witness: updating the concretely tracked pair `(1, 0)` persists the
full post-update record set, and a failed write leaves the same mutated
store. -/
theorem C7_witness :
    (mapGet storeC3 (getKey 1 0)).isSome = true ∧
    (updateTrackedItem true storeC3 1 0 updW).2.2 =
      [PersistEvent.saved
        (getTrackedItems (updateTrackedItem true storeC3 1 0 updW).1)] ∧
    (updateTrackedItem false storeC3 1 0 updW).1 =
      (updateTrackedItem true storeC3 1 0 updW).1 :=
  ⟨by decide,
    (C7_write_through storeC3 insNew 2000 1 0 updW).2.2.2.2.2.2.1 (by decide),
    (C7_write_through storeC3 insNew 2000 1 0 updW).2.2.2.2.2.2.2.1⟩

/-- C9 counterexample: `updateTrackedItem` accepts any
`Partial<TrackedItem>`, including an `id` override; on a well-formed store
holding `(1, 0)` and `(2, 0)`, `update(2, 0, {id: 1})` produces a store
with two distinct records for the pair `(1, 0)` — so not every store
operation preserves the one-record-per-pair invariant. -/
theorem C9_counterexample :
    WFStore storeC9 ∧
    ¬ AtMostOnePerPair (updateTrackedItem true storeC9 2 0 updIdOverride).1 := by
  constructor
  · unfold WFStore
    decide
  · unfold AtMostOnePerPair
    decide

/-- C9 amended: `add`, both forms of `remove`, loading from file, and
`update` with field updates that leave `id` and `sid` unchanged (which is
how every caller in the repository and the spec's update contract use it)
preserve well-formedness, hence at most one record per `(id, sid)` pair;
an `update` overriding `id` or `sid` can break the invariant. -/
theorem C9_invariant_preserved (writeOk : Bool) (m : Store)
    (item : InsertTrackedItem) (now : Int) (id sid : Int) (u : UpdateFields)
    (items : List TrackedItem) (h : WFStore m) :
    (WFStore (addTrackedItem writeOk m item now).1 ∧
      AtMostOnePerPair (addTrackedItem writeOk m item now).1) ∧
    (∀ sid? : Option Int, WFStore (removeTrackedItem writeOk m id sid?).1 ∧
      AtMostOnePerPair (removeTrackedItem writeOk m id sid?).1) ∧
    (u.id = none → u.sid = none →
      WFStore (updateTrackedItem writeOk m id sid u).1 ∧
      AtMostOnePerPair (updateTrackedItem writeOk m id sid u).1) ∧
    (WFStore (loadFromFile items) ∧
      AtMostOnePerPair (loadFromFile items)) ∧
    AtMostOnePerPair m := by
  refine ⟨?_, ?_, ?_, ?_, WFStore_to_AtMostOnePerPair h⟩
  · have hw : WFStore (addTrackedItem writeOk m item now).1 :=
      WFStore_mapSet (v :=
        { id := item.id, sid := item.sid, name := item.name,
          lastPrice := item.lastPrice, lastStock := item.lastStock,
          lastSoldTime := item.lastSoldTime, addedAt := now }) h
    exact ⟨hw, WFStore_to_AtMostOnePerPair hw⟩
  · intro sid?
    have hw : WFStore (removeTrackedItem writeOk m id sid?).1 := by
      match sid? with
      | some s =>
        exact WFStore_of_sublist (mapDelete_sublist m (getKey id s)) h
      | none =>
        exact WFStore_of_sublist (List.filter_sublist m) h
    exact ⟨hw, WFStore_to_AtMostOnePerPair hw⟩
  · intro hid hsid
    rcases hm : mapGet m (getKey id sid) with _ | existing
    · simp only [updateTrackedItem, hm]
      exact ⟨h, WFStore_to_AtMostOnePerPair h⟩
    · have hmem := mem_of_mapGet_eq_some hm
      have hkey : getKey id sid = getKey existing.id existing.sid :=
        h.2 _ hmem
      have hmid : (mergeUpdates existing u).id = existing.id := by
        simp [mergeUpdates, hid]
      have hmsid : (mergeUpdates existing u).sid = existing.sid := by
        simp [mergeUpdates, hsid]
      have hw : WFStore (updateTrackedItem writeOk m id sid u).1 := by
        simp only [updateTrackedItem, hm]
        have hws := WFStore_mapSet (v := mergeUpdates existing u) h
        rwa [hmid, hmsid, ← hkey] at hws
      exact ⟨hw, WFStore_to_AtMostOnePerPair hw⟩
  · have hw : WFStore (loadFromFile items) :=
      WFStore_foldl_mapSet items [] WFStore_nil
    exact ⟨hw, WFStore_to_AtMostOnePerPair hw⟩

/-- C9 witness: on a concrete well-formed store, an add and a
snapshot-field update both preserve the per-pair uniqueness invariant. -/
theorem C9_witness :
    WFStore storeC5 ∧ updW.id = none ∧ updW.sid = none ∧
    AtMostOnePerPair (addTrackedItem true storeC5 insNew 3000).1 ∧
    AtMostOnePerPair (updateTrackedItem true storeC5 1 0 updW).1 :=
  ⟨by unfold WFStore; decide, rfl, rfl,
    (C9_invariant_preserved true storeC5 insNew 3000 1 0 updW []
      (by unfold WFStore; decide)).1.2,
    ((C9_invariant_preserved true storeC5 insNew 3000 1 0 updW []
      (by unfold WFStore; decide)).2.2.1 rfl rfl).2⟩

/-- C10 counterexample: a successful 200 response whose single-object
payload has every property absent yields a populated record whose `id` is
the requested `7`, not `0` — so "each numeric field that is missing is 0"
is false for the identifier field. -/
theorem C10_counterexample :
    (getItemInfo 7 0 respEmptyObj).isSome = true ∧
    (getItemInfo 7 0 respEmptyObj).map BdoItemInfo.id = some 7 ∧
    (getItemInfo 7 0 respEmptyObj).map BdoItemInfo.id ≠ some 0 := by
  exact ⟨by decide, by decide, by decide⟩

/-- C10 amended: `getItemInfo` is total (never throws) and returns `null`
on a network error, parse failure, non-`ok` status, falsy body or empty
array; every successful result is the normalisation of some payload object,
in which each market-data numeric field that is missing, `null` or `0`
becomes `0`, a missing or empty name becomes `"Item " ++ id` (requested
id), while the identifier fields instead fall back to the request: a
missing or zero payload `id` becomes the requested `id` and a missing
`sid` the requested `sid`; a record stored with a zero price baseline then
suppresses the next change alert. -/
theorem C10_getItemInfo_contract (id sid : Int) :
    getItemInfo id sid ApiResponse.networkError = none ∧
    getItemInfo id sid ApiResponse.parseError = none ∧
    (∀ status data,
      getItemInfo id sid (ApiResponse.httpStatus false status data) = none) ∧
    (∀ status,
      getItemInfo id sid
        (ApiResponse.httpStatus true status ApiData.nullData) = none) ∧
    (∀ status,
      getItemInfo id sid
        (ApiResponse.httpStatus true status (ApiData.arr [])) = none) ∧
    (∀ resp info, getItemInfo id sid resp = some info →
      ∃ d, info = normalizeItem id sid d) ∧
    (∀ d : RawItem,
      ((d.lastSoldPrice = none ∨ d.lastSoldPrice = some 0) →
        (normalizeItem id sid d).lastSoldPrice = 0) ∧
      ((d.currentStock = none ∨ d.currentStock = some 0) →
        (normalizeItem id sid d).currentStock = 0) ∧
      ((d.lastSoldTime = none ∨ d.lastSoldTime = some 0) →
        (normalizeItem id sid d).lastSoldTime = 0) ∧
      ((d.basePrice = none ∨ d.basePrice = some 0) →
        (normalizeItem id sid d).basePrice = 0) ∧
      ((d.minEnhance = none ∨ d.minEnhance = some 0) →
        (normalizeItem id sid d).minEnhance = 0) ∧
      ((d.maxEnhance = none ∨ d.maxEnhance = some 0) →
        (normalizeItem id sid d).maxEnhance = 0) ∧
      ((d.totalTrades = none ∨ d.totalTrades = some 0) →
        (normalizeItem id sid d).totalTrades = 0) ∧
      ((d.priceMin = none ∨ d.priceMin = some 0) →
        (normalizeItem id sid d).priceMin = 0) ∧
      ((d.priceMax = none ∨ d.priceMax = some 0) →
        (normalizeItem id sid d).priceMax = 0) ∧
      ((d.name = none ∨ d.name = some "") →
        (normalizeItem id sid d).name = "Item " ++ toString id) ∧
      ((d.id = none ∨ d.id = some 0) → (normalizeItem id sid d).id = id) ∧
      (d.sid = none → (normalizeItem id sid d).sid = sid)) ∧
    (∀ (item : TrackedItem) (info : BdoItemInfo), item.lastPrice = 0 →
      detectChange item info = none) := by
  refine ⟨rfl, rfl, fun status data => ?_, fun status => rfl, fun status => rfl,
    fun resp info h => getItemInfo_eq_normalize h, fun d => ?_, ?_⟩
  · simp [getItemInfo]
  · refine ⟨fun h => numOr_default h, fun h => numOr_default h,
      fun h => numOr_default h, fun h => numOr_default h,
      fun h => numOr_default h, fun h => numOr_default h,
      fun h => numOr_default h, fun h => numOr_default h,
      fun h => numOr_default h, fun h => strOr_default h,
      fun h => numOr_default h, fun h => ?_⟩
    simp [normalizeItem, h]
  · intro item info hz
    simp [detectChange, hz]

/-- C10 witness: a payload lacking `lastSoldPrice` normalises to a zero
price, a network error yields `null`, and a zero stored baseline suppresses
the next alert. -/
theorem C10_witness :
    (emptyRaw.lastSoldPrice = none ∨ emptyRaw.lastSoldPrice = some 0) ∧
    (normalizeItem 7 0 emptyRaw).lastSoldPrice = 0 ∧
    getItemInfo 7 0 ApiResponse.networkError = none ∧
    itemW2.lastPrice = 0 ∧ detectChange itemW2 infoW2 = none :=
  ⟨Or.inl rfl,
    ((C10_getItemInfo_contract 7 0).2.2.2.2.2.2.1 emptyRaw).1 (Or.inl rfl),
    (C10_getItemInfo_contract 7 0).1, rfl,
    (C10_getItemInfo_contract 7 0).2.2.2.2.2.2.2 itemW2 infoW2 rfl⟩

end BdoMarketAlerts
